import Mathlib

/-!
Verification of the ephyalign repository against its specification.

The repository's core pipeline (onset detection, epoch building, alignment
refinement, metrics) lives in `ephyalign/core/{detector,aligner,metrics}.py`,
which are re-exported by `ephyalign/core/__init__.py`; those implementation
files are not part of the available sources, so the pipeline is modelled
here from the specification (sections 3, 4, 7 and 8 of `spec.md`).
The offline-bundle build script (`scripts/build_offline_bundle.py`) is
available and is embedded directly.

All samples are modelled as rationals (the code uses floating point; the
properties under examination are order/length/structural properties for
which exact arithmetic is the faithful idealisation).
-/

namespace Ephyalign

/-- Modelled from the spec: error taxonomy of section 7 (the implementation
file defining these exception classes is not among the available sources).
`configurationError` covers invalid parameter combinations and
`dataError` covers malformed buffers. -/
inductive EphyError
  | configurationError
  | dataError
deriving DecidableEq, Repr

/-- Modelled from the spec: `SignalBuffer` of section 3 — sample rate,
ordered mapping from channel name to samples, and sweep segmentation as
(startIndex, endIndex) pairs. -/
structure SignalBuffer where
  sampleRate : ℚ
  channels : List (String × List ℚ)
  sweepBoundaries : List (Nat × Nat)
deriving DecidableEq, Repr

/-- Modelled from the spec: `OnsetEvent` of section 3 — a sweep index and a
sample offset into that sweep. -/
structure OnsetEvent where
  sweepIndex : Nat
  sampleIndex : Nat
deriving DecidableEq, Repr

/-- Strict ordering of onset events by (sweepIndex, sampleIndex)
(sections 4.1 and 8). -/
def onsetLt (a b : OnsetEvent) : Prop :=
  a.sweepIndex < b.sweepIndex ∨
    (a.sweepIndex = b.sweepIndex ∧ a.sampleIndex < b.sampleIndex)

instance (a b : OnsetEvent) : Decidable (onsetLt a b) :=
  inferInstanceAs (Decidable (Or _ _))

/-- Ordering of onset events by sweep, with a minimum sample gap of `gap`
inside a sweep. -/
def onsetLtGap (gap : Nat) (a b : OnsetEvent) : Prop :=
  a.sweepIndex < b.sweepIndex ∨
    (a.sweepIndex = b.sweepIndex ∧ a.sampleIndex + gap ≤ b.sampleIndex)

instance (gap : Nat) (a b : OnsetEvent) : Decidable (onsetLtGap gap a b) :=
  inferInstanceAs (Decidable (Or _ _))

/-- Modelled from the spec: detector trigger polarity (section 4.1). -/
inductive Polarity
  | rising
  | falling
  | either
deriving DecidableEq, Repr

/-- Modelled from the spec: the configuration recognized by the Onset
Detector (section 4.1): `threshold`, `polarity`, `minInterOnsetDistance`
(seconds) and `refractoryAfterOnset` (seconds). -/
structure DetectorConfig where
  threshold : ℚ
  polarity : Polarity
  minInterOnsetDistance : ℚ
  refractoryAfterOnset : ℚ
deriving DecidableEq, Repr

/-- Absolute value on the rationals, written out so that it evaluates by
kernel reduction. -/
def ratAbs (x : ℚ) : ℚ := if x < 0 then -x else x

/-- Look up a channel by name in the buffer's ordered channel mapping. -/
def lookupChannel (buf : SignalBuffer) (ch : String) : Option (List ℚ) :=
  (buf.channels.find? (fun p => p.1 == ch)).map (fun p => p.2)

/-- The samples of one sweep, as delimited by a (startIndex, endIndex)
boundary pair. -/
def sweepSlice (samples : List ℚ) (b : Nat × Nat) : List ℚ :=
  (samples.drop b.1).take (b.2 - b.1)

/-- Modelled from the spec: whether a sample triggers a threshold crossing
for the configured polarity (section 4.1). -/
def crosses (cfg : DetectorConfig) (x : ℚ) : Bool :=
  match cfg.polarity with
  | .rising => cfg.threshold ≤ x
  | .falling => x ≤ -cfg.threshold
  | .either => cfg.threshold ≤ ratAbs x

/-- Modelled from the spec: hysteresis release — the detector re-arms once
the trigger signal has returned below the threshold (section 4.1). -/
def released (cfg : DetectorConfig) (x : ℚ) : Bool :=
  !(crosses cfg x)

/-- Minimum inter-onset distance converted from seconds to samples. -/
def minInterOnsetSamples (cfg : DetectorConfig) (rate : ℚ) : Nat :=
  (⌈cfg.minInterOnsetDistance * rate⌉).toNat

/-- Refractory period converted from seconds to samples. -/
def refractorySamples (cfg : DetectorConfig) (rate : ℚ) : Nat :=
  (⌈cfg.refractoryAfterOnset * rate⌉).toNat

/-- The effective minimum gap (in samples) enforced between two emitted
onsets: both the dedup merge distance and the refractory suppression
(section 4.1) forbid a second onset closer than this. -/
def onsetGap (cfg : DetectorConfig) (rate : ℚ) : Nat :=
  max (minInterOnsetSamples cfg rate) (refractorySamples cfg rate)

/-- Modelled from the spec: the per-sweep scan of section 4.1.  State:
current index `i`, armed flag (hysteresis), and the index of the last
emitted onset.  A crossing is emitted only when armed and at least `gap`
samples after the previous onset; emitting disarms the detector, and it
re-arms once the signal is released. -/
def scanOnsets (cfg : DetectorConfig) (gap : Nat) :
    List ℚ → Nat → Bool → Option Nat → List Nat
  | [], _, _, _ => []
  | x :: xs, i, armed, last =>
    if armed && crosses cfg x &&
        (match last with | none => true | some l => decide (l + gap ≤ i)) then
      i :: scanOnsets cfg gap xs (i + 1) false (some i)
    else
      scanOnsets cfg gap xs (i + 1) (armed || released cfg x) last

/-- Onsets of a single sweep: scan from index 0, armed, no previous onset. -/
def detectSweep (cfg : DetectorConfig) (gap : Nat) (samples : List ℚ) : List Nat :=
  scanOnsets cfg gap samples 0 true none

/-- Per-sweep loop: detect each sweep's onsets in order, tagging them with
increasing sweep indices starting at `k`. -/
def detectAll (cfg : DetectorConfig) (gap : Nat) (samples : List ℚ) :
    Nat → List (Nat × Nat) → List OnsetEvent
  | _, [] => []
  | k, b :: bs =>
    (detectSweep cfg gap (sweepSlice samples b)).map (fun idx => ⟨k, idx⟩) ++
      detectAll cfg gap samples (k + 1) bs

/-- Modelled from the spec: `detect(buffer, channelName, config)` of
section 4.1 (the implementation file `ephyalign/core/detector.py` behind
`detect_stim_onsets` is not among the available sources).  Validates the
configuration first (section 4.1 edge cases, section 7: a negative or zero
threshold/window parameter fails with `ConfigurationError` before any
processing), then performs the buffer boundary check each stage does on
entry (section 7: a malformed buffer — here a non-positive sample rate or
a missing channel — is a `DataError`), then scans each sweep of the
designated channel. -/
def detect_stim_onsets (buf : SignalBuffer) (ch : String) (cfg : DetectorConfig) :
    Except EphyError (List OnsetEvent) :=
  if cfg.threshold ≤ 0 ∨ cfg.minInterOnsetDistance ≤ 0 ∨ cfg.refractoryAfterOnset ≤ 0 then
    .error .configurationError
  else if buf.sampleRate ≤ 0 then .error .dataError
  else
    match lookupChannel buf ch with
    | none => .error .dataError
    | some samples =>
      .ok (detectAll cfg (onsetGap cfg buf.sampleRate) samples 0 buf.sweepBoundaries)

/-- Modelled from the spec: the Epoch Builder's boundary policy
(section 4.2), a configuration option with default `drop`. -/
inductive BoundaryPolicy
  | pad
  | drop
deriving DecidableEq, Repr

/-- Modelled from the spec: the default value of `boundaryPolicy`
(section 4.2: "policy is a configuration option (`boundaryPolicy:
pad | drop`), default `drop`"). -/
def defaultBoundaryPolicy : BoundaryPolicy := .drop

/-- Modelled from the spec: `Epoch` of section 3 — the source onset, a
per-channel fixed-length window, a relative time base, and a validity
flag. -/
structure Epoch where
  sourceOnset : OnsetEvent
  window : List (String × List ℚ)
  timeBase : List ℚ
  valid : Bool
deriving DecidableEq, Repr

/-- Sample at a possibly out-of-range signed index; out-of-range positions
read as zero (this realizes the zero padding of section 4.2). -/
def sampleAt (samples : List ℚ) (i : Int) : ℚ :=
  if i < 0 then 0 else samples.getD i.toNat 0

/-- Pre-onset window length in samples: `⌊preTime * sampleRate⌋`
(section 4.2: seconds are converted to sample counts by rounding down). -/
def preSamplesOf (preTime rate : ℚ) : Int := ⌊preTime * rate⌋

/-- Post-onset window length in samples: `⌊postTime * sampleRate⌋`. -/
def postSamplesOf (postTime rate : ℚ) : Int := ⌊postTime * rate⌋

/-- Modelled from the spec: build one epoch around an onset (section 4.2):
slice `[onsetSample - preSamples, onsetSample + postSamples)` from every
channel of the onset's sweep, zero-reading positions outside the sweep,
with `valid` false exactly when the slice leaves the sweep. -/
def buildEpoch (channels : List (String × List ℚ)) (b : Nat × Nat) (rate : ℚ)
    (pre post : Int) (o : OnsetEvent) : Epoch :=
  let total := (pre + post).toNat
  { sourceOnset := o
    window := channels.map (fun p =>
      (p.1, (List.range total).map (fun (j : ℕ) =>
        sampleAt (sweepSlice p.2 b) ((o.sampleIndex : Int) - pre + (j : Int)))))
    timeBase := (List.range total).map (fun (j : ℕ) => (((j : Int) - pre : Int) : ℚ) / rate)
    valid := decide (0 ≤ (o.sampleIndex : Int) - pre) &&
      decide ((o.sampleIndex : Int) + post ≤ ((b.2 - b.1 : Nat) : Int)) }

/-- What the Epoch Builder does with a single onset: build its epoch and
apply the boundary policy — under `drop` an invalid epoch is removed,
under `pad` it is kept with its zero padding (section 4.2). -/
def epochFor (buf : SignalBuffer) (pre post : Int) (policy : BoundaryPolicy)
    (o : OnsetEvent) : Option Epoch :=
  let b := buf.sweepBoundaries.getD o.sweepIndex (0, 0)
  let e := buildEpoch buf.channels b buf.sampleRate pre post o
  match policy with
  | .pad => some e
  | .drop => if e.valid then some e else none

/-- The successful output of `build_epochs`: one epoch per surviving onset,
in input order. -/
def builtEpochs (buf : SignalBuffer) (onsets : List OnsetEvent)
    (preTime postTime : ℚ) (policy : BoundaryPolicy) : List Epoch :=
  onsets.filterMap
    (epochFor buf (preSamplesOf preTime buf.sampleRate)
      (postSamplesOf postTime buf.sampleRate) policy)

/-- Modelled from the spec: `build(buffer, onsets, preTime, postTime)` of
section 4.2 (the implementation file `ephyalign/core/aligner.py` behind
`build_epochs` is not among the available sources).  Validates
`preSamples + postSamples > 0` first (section 4.2, section 7), then builds
one epoch per onset in input order; under `boundaryPolicy = drop` the
epochs marked invalid are excluded from the result, under `pad` they are
kept zero-padded at fixed length. -/
def build_epochs (buf : SignalBuffer) (onsets : List OnsetEvent)
    (preTime postTime : ℚ) (policy : BoundaryPolicy) :
    Except EphyError (List Epoch) :=
  if preSamplesOf preTime buf.sampleRate + postSamplesOf postTime buf.sampleRate ≤ 0 then
    .error .configurationError
  else
    .ok (builtEpochs buf onsets preTime postTime policy)

/-- Value of the piecewise-linear extension of a sample list at a rational
position `t` (in samples), reading zero outside the list. -/
def interpAt (xs : List ℚ) (t : ℚ) : ℚ :=
  let f := t - ⌊t⌋
  (1 - f) * sampleAt xs ⌊t⌋ + f * sampleAt xs (⌊t⌋ + 1)

/-- Modelled from the spec: upsampling by an interpolation factor
(section 4.3; the exact band-limited kernel is left open by the spec's
section 9 design note, so the interpolation is modelled as the piecewise
linear one). -/
def upsample (factor : Nat) (xs : List ℚ) : List ℚ :=
  if xs.isEmpty then []
  else (List.range ((xs.length - 1) * factor + 1)).map
    (fun (k : ℕ) => interpAt xs ((k : ℚ) / (factor : ℚ)))

/-- Dot product of two sample lists (over their common length). -/
def dotList (a b : List ℚ) : ℚ :=
  (a.zipWith (fun x y => x * y) b).sum

/-- The overlapping parts of candidate and reference when the reference is
displaced by an integer lag (in upsample steps): at lag `L ≥ 0` the
candidate's sample `i` faces the reference's sample `i - L`. -/
def overlapPair (c r : List ℚ) (L : Int) : List ℚ × List ℚ :=
  if 0 ≤ L then (c.drop L.toNat, r) else (c, r.drop (-L).toNat)

/-- Cross-correlation of candidate against reference at an integer lag. -/
def corrAt (c r : List ℚ) (L : Int) : ℚ :=
  dotList (overlapPair c r L).1 (overlapPair c r L).2

/-- Modelled from the spec: `confidence` (section 4.3) — the correlation
peak height normalized by the energies of the two overlapping segments
(so a perfect local match yields a value close to 1). -/
def confidenceAt (c r : List ℚ) (L : Int) : ℚ :=
  let a := (overlapPair c r L).1
  let b := (overlapPair c r L).2
  let e := dotList (a.take b.length) (a.take b.length) *
    dotList (b.take a.length) (b.take a.length)
  if e = 0 then 0 else corrAt c r L * corrAt c r L / e

/-- The integer lags searched: `-S, ..., S` (in upsample steps). -/
def searchLags (S : Nat) : List Int :=
  (List.range (2 * S + 1)).map (fun (k : ℕ) => (k : Int) - (S : Int))

/-- Location of the correlation maximum over the searched lags, keeping the
first maximum on ties. -/
def bestLag (c r : List ℚ) (S : Nat) : Int :=
  (searchLags S).foldl
    (fun best L => if corrAt c r best < corrAt c r L then L else best)
    (-(S : Int))

/-- Modelled from the spec: parabolic (quadratic) refinement across the
three correlation samples around the discrete maximum (section 4.3),
guarded against a degenerate (flat) vertex. -/
def parabolicDelta (cm c0 cp : ℚ) : ℚ :=
  let denom := cm - 2 * c0 + cp
  if denom = 0 then 0 else (cm - cp) / (2 * denom)

/-- Modelled from the spec: the default interpolation factor (section 4.3:
"a fixed interpolation factor (default 10x)"). -/
def interpolationFactor : Nat := 10

/-- Modelled from the spec: the default search range in original samples
(section 4.3: "a bounded search range (default +-2 original samples)"). -/
def searchRangeSamples : Nat := 2

/-- Modelled from the spec: per-epoch offset estimation of section 4.3
(the implementation file `ephyalign/core/aligner.py` behind
`refine_alignment` is not among the available sources): upsample candidate
and reference by the interpolation factor, cross-correlate within the
bounded lag range, refine the discrete maximum parabolically, and report
`(appliedOffsetSamples, confidence)`. -/
def refine_alignment (candidate reference : List ℚ) : ℚ × ℚ :=
  let c := upsample interpolationFactor candidate
  let r := upsample interpolationFactor reference
  let L := bestLag c r (searchRangeSamples * interpolationFactor)
  let d := parabolicDelta (corrAt c r (L - 1)) (corrAt c r L) (corrAt c r (L + 1))
  (((L : ℚ) + d) / (interpolationFactor : ℚ), confidenceAt c r L)

/-- A copy of a waveform shifted by a (possibly fractional) number of
samples: sample `i` of the copy reads the waveform at position `i - off`
(so a positive `off` delays the waveform). -/
def shiftWaveform (w : List ℚ) (off : ℚ) : List ℚ :=
  (List.range w.length).map (fun (i : ℕ) => interpAt w ((i : ℚ) - off))

/-- The round-trip recovery property claimed for the Alignment Refiner
(section 8): on the copy of `w` shifted by `off` samples, the refiner
reports an offset within 0.05 samples of `off` and a confidence above
0.9. -/
def recoversOffset (w : List ℚ) (off : ℚ) : Prop :=
  ratAbs ((refine_alignment (shiftWaveform w off) w).1 - off) ≤ 1 / 20 ∧
    (9 : ℚ) / 10 < (refine_alignment (shiftWaveform w off) w).2

instance (w : List ℚ) (off : ℚ) : Decidable (recoversOffset w off) :=
  inferInstanceAs (Decidable (And _ _))

/-- Modelled from the spec: applying the refined offset (section 4.3):
resample every channel of the epoch onto the original grid shifted by
`appliedOffsetSamples` (same interpolation) and recompute `timeBase` so it
stays centered at onset = 0; `sourceOnset` and `valid` are untouched. -/
def apply_alignment (offset : ℚ) (rate : ℚ) (pre : Int) (e : Epoch) : Epoch :=
  { sourceOnset := e.sourceOnset
    window := e.window.map (fun p =>
      (p.1, (List.range p.2.length).map (fun (j : ℕ) => interpAt p.2 ((j : ℚ) + offset))))
    timeBase := (List.range e.timeBase.length).map
      (fun (j : ℕ) => (((j : Int) - pre : Int) : ℚ) / rate)
    valid := e.valid }

/-- Modelled from the spec: peak polarity convention of section 4.4. -/
inductive PeakPolarity
  | positive
  | negative
  | auto
deriving DecidableEq, Repr

/-- Modelled from the spec: the configuration consumed by the Metrics
Calculator (sections 4.4 and 6): baseline and search windows (seconds),
peak polarity convention, rise thresholds (fractions of peak) and the
decay fraction. -/
structure MetricsConfig where
  baselineWindow : ℚ
  searchStart : ℚ
  searchEnd : ℚ
  peakPolarity : PeakPolarity
  riseLowFrac : ℚ
  riseHighFrac : ℚ
  decayFrac : ℚ
deriving DecidableEq, Repr

/-- Modelled from the spec: `EpochMetrics` of section 3.  Following the
section 9 design note, the sentinel "not applicable" values of `riseTime`
and `decayTime` are an explicit tagged-absent value (`none`), not a magic
numeric constant. -/
structure EpochMetrics where
  baseline : ℚ
  peakAmplitude : ℚ
  peakLatency : ℚ
  riseTime : Option ℚ
  decayTime : Option ℚ
  area : ℚ
deriving DecidableEq, Repr

/-- Mean of a sample list, zero on the empty list (so that degenerate
windows never raise, per section 4.4). -/
def meanQ (xs : List ℚ) : ℚ :=
  if xs.length = 0 then 0 else xs.sum / (xs.length : ℚ)

/-- Whether a new deviation strictly beats the current best one under the
configured peak polarity convention (section 4.4). -/
def betterPeak (pol : PeakPolarity) (d best : ℚ) : Bool :=
  match pol with
  | .positive => best < d
  | .negative => d < best
  | .auto => ratAbs best < ratAbs d

/-- Fold selecting the first strictly-best deviation and its index. -/
def peakFold (pol : PeakPolarity) : List ℚ → Nat → Nat × ℚ → Nat × ℚ
  | [], _, best => best
  | d :: ds, i, best =>
    peakFold pol ds (i + 1) (if betterPeak pol d best.2 then (i, d) else best)

/-- Index and signed value of the peak deviation in a search slice;
`(0, 0)` when the slice is empty or never deviates from baseline. -/
def peakSelect (pol : PeakPolarity) (devs : List ℚ) : Nat × ℚ :=
  peakFold pol devs 0 (0, 0)

/-- Trapezoidal-rule integral of a deviation list sampled at rate `rate`
(section 4.4), zero when fewer than two points. -/
def trapArea (devs : List ℚ) (rate : ℚ) : ℚ :=
  (devs.zipWith (fun a b => (a + b) / 2) devs.tail).sum / rate

/-- Modelled from the spec: `compute(alignmentResult, config)` of
section 4.4 (the implementation file `ephyalign/core/metrics.py` behind
`compute_epoch_metrics` is not among the available sources).  Operates on
the designated response channel's samples with the onset at sample
`onsetIdx`.  Total by construction: every numeric edge case (flat signal,
empty baseline or search window) yields a defined value or the explicit
`none` sentinel, never an exception; per the section 8 "no response"
scenario, a zero peak amplitude makes rise and decay "not applicable". -/
def compute_epoch_metrics (samples : List ℚ) (timeBase : List ℚ)
    (onsetIdx : Nat) (rate : ℚ) (cfg : MetricsConfig) : EpochMetrics :=
  let bw := (⌊cfg.baselineWindow * rate⌋).toNat
  let baseSlice := (samples.take onsetIdx).drop (onsetIdx - bw)
  let baseline := meanQ baseSlice
  let s0 := onsetIdx + (⌊cfg.searchStart * rate⌋).toNat
  let s1 := onsetIdx + (⌊cfg.searchEnd * rate⌋).toNat
  let devs := ((samples.take s1).drop s0).map (fun x => x - baseline)
  let pk := peakSelect cfg.peakPolarity devs
  let peakAmplitude := pk.2
  let peakLatency := timeBase.getD (s0 + pk.1) 0
  let area := trapArea devs rate
  let riseTime :=
    if peakAmplitude = 0 then none
    else
      let upToPeak := devs.take (pk.1 + 1)
      match upToPeak.findIdx? (fun d => cfg.riseLowFrac * ratAbs peakAmplitude ≤ ratAbs d),
          upToPeak.findIdx? (fun d => cfg.riseHighFrac * ratAbs peakAmplitude ≤ ratAbs d) with
      | some iLo, some iHi => some (((iHi - iLo : Nat) : ℚ) / rate)
      | _, _ => none
  let decayTime :=
    if peakAmplitude = 0 then none
    else
      match (devs.drop (pk.1 + 1)).findIdx?
          (fun d => ratAbs d ≤ cfg.decayFrac * ratAbs peakAmplitude) with
      | some j => some (((j + 1 : Nat) : ℚ) / rate)
      | none => none
  { baseline := baseline
    peakAmplitude := peakAmplitude
    peakLatency := peakLatency
    riseTime := riseTime
    decayTime := decayTime
    area := area }

/-! The offline-bundle build script `scripts/build_offline_bundle.py` is
among the available sources; the following definitions embed it directly. -/

/-- The result record of a finished subprocess, as `subprocess.run` with
`capture_output=True` produces it: return code, captured stdout and
stderr. -/
structure CompletedProcess where
  returncode : Int
  stdout : String
  stderr : String
deriving DecidableEq, Repr

/-- Outcome of `run_command`: either the completed-process record is
returned, or `subprocess.CalledProcessError` is raised carrying the
return code, the command's stdout and its stderr. -/
inductive RunOutcome
  | completed : CompletedProcess → RunOutcome
  | calledProcessError : Int → String → String → RunOutcome
deriving DecidableEq, Repr

/-- Embedding of `run_command` (scripts/build_offline_bundle.py, lines
28-36): the command is always run with `check=False` and captured; if the
return code is nonzero and the caller passed `check=True`, a
`CalledProcessError` carrying stdout and stderr is raised, otherwise the
result is returned.  The completed process of the underlying
`subprocess.run` call is the argument. -/
def run_command (result : CompletedProcess) (check : Bool) : RunOutcome :=
  if result.returncode ≠ 0 ∧ check then
    .calledProcessError result.returncode result.stdout result.stderr
  else
    .completed result

/-- Whether one `run_command` invocation inside `download_dependencies`
succeeds or raises `CalledProcessError`. -/
inductive StepOutcome
  | ok
  | raised
deriving DecidableEq, Repr

/-- The part of the filesystem state `download_dependencies` touches that
matters here: whether `output_dir/.temp_venv` exists. -/
structure FsState where
  tempVenvExists : Bool
deriving DecidableEq, Repr

/-- Embedding of the `.temp_venv` lifecycle of `download_dependencies`
(scripts/build_offline_bundle.py, lines 124-165).  Inputs: the initial
filesystem state, the outcomes of the four `run_command` calls in the
`try` block (`uv venv`, `uv pip install pip`, the platform-constrained
`pip download`, and the unconstrained retry), and whether a failing
`uv venv` still leaves the directory behind.  Output: the filesystem
state after the `finally` block (which removes `.temp_venv` when it
exists) together with whether an exception escapes the function (a failure
of the first two calls reaches the `except` block, whose reference to the
not-yet-bound `temp_pip` raises; download failures are caught, the retry's
failure being swallowed with a warning). -/
def download_dependencies_tempVenv (init : FsState)
    (venvCreate pipInstall _dlPlatform _dlPlain : StepOutcome)
    (venvLeavesDir : Bool) : FsState × Bool :=
  let afterVenv : FsState :=
    { tempVenvExists :=
        match venvCreate with
        | .ok => true
        | .raised => init.tempVenvExists || venvLeavesDir }
  let escapes : Bool :=
    match venvCreate with
    | .raised => true
    | .ok =>
      match pipInstall with
      | .raised => true
      | .ok => false
  let finalFs : FsState :=
    if afterVenv.tempVenvExists then { tempVenvExists := false } else afterVenv
  (finalFs, escapes)

/-! Concrete inputs used to exercise the pipeline on closed instances. -/

/-- A small synthetic buffer: one sweep of ten samples at 10 Hz containing
two square stimulus pulses on the `stim` channel. -/
def exBuffer : SignalBuffer :=
  { sampleRate := 10
    channels := [("stim", [0, 0, 5, 5, 0, 0, 0, 5, 5, 0])]
    sweepBoundaries := [(0, 10)] }

/-- A valid detector configuration for `exBuffer`. -/
def exConfig : DetectorConfig :=
  { threshold := 2
    polarity := .rising
    minInterOnsetDistance := 1 / 10
    refractoryAfterOnset := 1 / 10 }

/-- A configuration with a zero threshold, which section 4.1 rejects. -/
def badConfig : DetectorConfig :=
  { threshold := 0
    polarity := .rising
    minInterOnsetDistance := 1 / 10
    refractoryAfterOnset := 1 / 10 }

/-- A metrics configuration for the flat-signal scenario. -/
def exMetricsConfig : MetricsConfig :=
  { baselineWindow := 1 / 5
    searchStart := 0
    searchEnd := 1 / 5
    peakPolarity := .auto
    riseLowFrac := 1 / 10
    riseHighFrac := 9 / 10
    decayFrac := 1 / 2 }

/-- A non-degenerate synthetic reference pulse with quiet flanks, used for
the round-trip alignment scenario of section 8. -/
def examplePulse : List ℚ := [0, 0, 1, 3, 2, 1, 0, 0]

/-! Helper lemmas about the onset scan. -/

theorem scanOnsets_mem (cfg : DetectorConfig) (gap : Nat) :
    ∀ (xs : List ℚ) (i : Nat) (armed : Bool) (last : Option Nat) (j : Nat),
      j ∈ scanOnsets cfg gap xs i armed last →
      i ≤ j ∧ j < i + xs.length ∧ ∀ l, last = some l → l + gap ≤ j := by
  intro xs
  induction xs with
  | nil => intro i armed last j h; simp [scanOnsets] at h
  | cons x xs ih =>
    intro i armed last j h
    simp only [scanOnsets] at h
    split at h
    · rename_i hcond
      rcases List.mem_cons.mp h with rfl | h2
      · refine ⟨Nat.le_refl _, by simp only [List.length_cons]; omega, ?_⟩
        intro l hl
        subst hl
        simp only [Bool.and_eq_true, decide_eq_true_eq] at hcond
        exact hcond.2
      · obtain ⟨h1, h2len, _⟩ := ih (i + 1) false (some i) j h2
        refine ⟨by omega, by simp only [List.length_cons]; omega, ?_⟩
        intro l hl
        subst hl
        simp only [Bool.and_eq_true, decide_eq_true_eq] at hcond
        omega
    · obtain ⟨h1, h2len, h3⟩ := ih (i + 1) (armed || released cfg x) last j h
      exact ⟨by omega, by simp only [List.length_cons]; omega, h3⟩

theorem scanOnsets_chain' (cfg : DetectorConfig) (gap : Nat) :
    ∀ (xs : List ℚ) (i : Nat) (armed : Bool) (last : Option Nat),
      List.Chain' (fun a b => a + gap ≤ b) (scanOnsets cfg gap xs i armed last) := by
  intro xs
  induction xs with
  | nil => intro i armed last; simp [scanOnsets]
  | cons x xs ih =>
    intro i armed last
    simp only [scanOnsets]
    split
    · rw [List.chain'_cons']
      refine ⟨?_, ih _ _ _⟩
      intro y hy
      have hmem : y ∈ scanOnsets cfg gap xs (i + 1) false (some i) :=
        List.mem_of_mem_head? hy
      exact (scanOnsets_mem cfg gap xs (i + 1) false (some i) y hmem).2.2 i rfl
    · exact ih _ _ _

theorem scanOnsets_pairwise (cfg : DetectorConfig) (gap : Nat)
    (xs : List ℚ) (i : Nat) (armed : Bool) (last : Option Nat) :
    (scanOnsets cfg gap xs i armed last).Pairwise (fun a b => a + gap ≤ b) := by
  haveI : IsTrans Nat (fun a b => a + gap ≤ b) := ⟨fun a b c hab hbc => by omega⟩
  exact List.chain'_iff_pairwise.mp (scanOnsets_chain' cfg gap xs i armed last)

theorem detectSweep_mem (cfg : DetectorConfig) (gap : Nat) (samples : List ℚ)
    (j : Nat) (h : j ∈ detectSweep cfg gap samples) : j < samples.length := by
  have := scanOnsets_mem cfg gap samples 0 true none j h
  omega

theorem detectAll_sweepIndex_ge (cfg : DetectorConfig) (gap : Nat) (samples : List ℚ) :
    ∀ (bs : List (Nat × Nat)) (k : Nat) (e : OnsetEvent),
      e ∈ detectAll cfg gap samples k bs → k ≤ e.sweepIndex := by
  intro bs
  induction bs with
  | nil => intro k e h; simp [detectAll] at h
  | cons b bs ih =>
    intro k e h
    rw [detectAll] at h
    rcases List.mem_append.mp h with h1 | h2
    · obtain ⟨idx, _, rfl⟩ := List.mem_map.mp h1
      exact Nat.le_refl _
    · have := ih (k + 1) e h2
      omega

theorem detectAll_mem (cfg : DetectorConfig) (gap : Nat) (samples : List ℚ) :
    ∀ (bs : List (Nat × Nat)) (k : Nat) (e : OnsetEvent),
      e ∈ detectAll cfg gap samples k bs →
      ∃ b, bs[e.sweepIndex - k]? = some b ∧
        e.sampleIndex < (sweepSlice samples b).length := by
  intro bs
  induction bs with
  | nil => intro k e h; simp [detectAll] at h
  | cons b bs ih =>
    intro k e h
    rw [detectAll] at h
    rcases List.mem_append.mp h with h1 | h2
    · obtain ⟨idx, hidx, rfl⟩ := List.mem_map.mp h1
      refine ⟨b, ?_, detectSweep_mem cfg gap _ idx hidx⟩
      simp
    · have hge := detectAll_sweepIndex_ge cfg gap samples bs (k + 1) e h2
      obtain ⟨b2, hb2, hlen⟩ := ih (k + 1) e h2
      refine ⟨b2, ?_, hlen⟩
      have : e.sweepIndex - k = (e.sweepIndex - (k + 1)) + 1 := by omega
      rw [this]
      simpa using hb2

theorem detectAll_pairwise (cfg : DetectorConfig) (gap : Nat) (samples : List ℚ) :
    ∀ (bs : List (Nat × Nat)) (k : Nat),
      (detectAll cfg gap samples k bs).Pairwise (onsetLtGap gap) := by
  intro bs
  induction bs with
  | nil => intro k; simp [detectAll]
  | cons b bs ih =>
    intro k
    rw [detectAll, List.pairwise_append]
    refine ⟨?_, ih (k + 1), ?_⟩
    · rw [List.pairwise_map]
      refine (scanOnsets_pairwise cfg gap _ 0 true none).imp ?_
      intro a c hac
      exact Or.inr ⟨rfl, hac⟩
    · intro e1 h1 e2 h2
      obtain ⟨idx, _, rfl⟩ := List.mem_map.mp h1
      have hge := detectAll_sweepIndex_ge cfg gap samples bs (k + 1) e2 h2
      exact Or.inl (Nat.lt_of_lt_of_le (Nat.lt_succ_self k) hge)

theorem detect_stim_onsets_ok (buf : SignalBuffer) (ch : String)
    (cfg : DetectorConfig) (onsets : List OnsetEvent)
    (h : detect_stim_onsets buf ch cfg = .ok onsets) :
    (0 < cfg.threshold ∧ 0 < cfg.minInterOnsetDistance ∧
      0 < cfg.refractoryAfterOnset ∧ 0 < buf.sampleRate) ∧
    ∃ samples, lookupChannel buf ch = some samples ∧
      onsets = detectAll cfg (onsetGap cfg buf.sampleRate) samples 0 buf.sweepBoundaries := by
  rw [detect_stim_onsets] at h
  split at h
  · exact absurd h (by simp)
  · rename_i hcfg
    push_neg at hcfg
    split at h
    · exact absurd h (by simp)
    · rename_i hrate
      push_neg at hrate
      split at h
      · exact absurd h (by simp)
      · rename_i samples hs
        refine ⟨⟨hcfg.1, hcfg.2.1, hcfg.2.2, hrate⟩, samples, hs, ?_⟩
        exact (Except.ok.injEq _ _).mp h.symm

theorem minInterOnsetSamples_pos (cfg : DetectorConfig) (rate : ℚ)
    (hd : 0 < cfg.minInterOnsetDistance) (hr : 0 < rate) :
    1 ≤ minInterOnsetSamples cfg rate := by
  rw [minInterOnsetSamples]
  have hpos : 0 < cfg.minInterOnsetDistance * rate := mul_pos hd hr
  have : (0 : ℤ) < ⌈cfg.minInterOnsetDistance * rate⌉ := by
    exact_mod_cast Int.ceil_pos.mpr hpos
  omega

/-! Helper lemmas about the Epoch Builder. -/

theorem epochFor_eq (buf : SignalBuffer) (pre post : Int)
    (policy : BoundaryPolicy) (o : OnsetEvent) (e : Epoch)
    (h : epochFor buf pre post policy o = some e) :
    e = buildEpoch buf.channels (buf.sweepBoundaries.getD o.sweepIndex (0, 0))
      buf.sampleRate pre post o := by
  cases policy with
  | pad =>
    simp only [epochFor] at h
    exact (Option.some.injEq _ _).mp h.symm
  | drop =>
    simp only [epochFor] at h
    split at h
    · exact (Option.some.injEq _ _).mp h.symm
    · exact absurd h (by simp)

theorem epochFor_sourceOnset (buf : SignalBuffer) (pre post : Int)
    (policy : BoundaryPolicy) (o : OnsetEvent) (e : Epoch)
    (h : epochFor buf pre post policy o = some e) : e.sourceOnset = o := by
  rw [epochFor_eq buf pre post policy o e h, buildEpoch]

theorem map_filterMap_sublist {α β : Type} (g : α → Option β) (f : β → α)
    (hf : ∀ a b, g a = some b → f b = a) :
    ∀ l : List α, ((l.filterMap g).map f).Sublist l := by
  intro l
  induction l with
  | nil => simp
  | cons a l ih =>
    rw [List.filterMap_cons]
    cases hg : g a with
    | none => exact ih.cons a
    | some b =>
      rw [List.map_cons, hf a b hg]
      exact ih.cons₂ a

theorem buildEpoch_timeBase_length (channels : List (String × List ℚ))
    (b : Nat × Nat) (rate : ℚ) (pre post : Int) (o : OnsetEvent) :
    (buildEpoch channels b rate pre post o).timeBase.length = (pre + post).toNat := by
  simp only [buildEpoch, List.length_map, List.length_range]

theorem buildEpoch_window_length (channels : List (String × List ℚ))
    (b : Nat × Nat) (rate : ℚ) (pre post : Int) (o : OnsetEvent)
    (p : String × List ℚ) (hp : p ∈ (buildEpoch channels b rate pre post o).window) :
    p.2.length = (pre + post).toNat := by
  simp only [buildEpoch, List.mem_map] at hp
  obtain ⟨q, _, rfl⟩ := hp
  simp only [List.length_map, List.length_range]

theorem buildEpoch_invalid_left (channels : List (String × List ℚ))
    (b : Nat × Nat) (rate : ℚ) (pre post : Int) (o : OnsetEvent)
    (hpre : (o.sampleIndex : Int) - pre = -1) :
    (buildEpoch channels b rate pre post o).valid = false := by
  simp only [buildEpoch, hpre]
  simp

theorem buildEpoch_window_head_zero (channels : List (String × List ℚ))
    (b : Nat × Nat) (rate : ℚ) (pre post : Int) (o : OnsetEvent)
    (hpre : (o.sampleIndex : Int) - pre = -1)
    (hpos : 0 < (pre + post).toNat) :
    ∀ p ∈ (buildEpoch channels b rate pre post o).window, p.2.head? = some 0 := by
  intro p hp
  simp only [buildEpoch, List.mem_map] at hp
  obtain ⟨q, _, rfl⟩ := hp
  obtain ⟨k, hk⟩ : ∃ k, (pre + post).toNat = k + 1 := ⟨(pre + post).toNat - 1, by omega⟩
  simp only [hk, List.range_succ_eq_map, List.map_cons, List.head?_cons,
    Nat.cast_zero, add_zero]
  rw [hpre]
  rfl

theorem build_epochs_ok (buf : SignalBuffer) (onsets : List OnsetEvent)
    (preTime postTime : ℚ) (policy : BoundaryPolicy) (epochs : List Epoch)
    (h : build_epochs buf onsets preTime postTime policy = .ok epochs) :
    0 < preSamplesOf preTime buf.sampleRate + postSamplesOf postTime buf.sampleRate ∧
    epochs = builtEpochs buf onsets preTime postTime policy := by
  rw [build_epochs] at h
  split at h
  · exact absurd h (by simp)
  · rename_i hc
    push_neg at hc
    exact ⟨hc, ((Except.ok.injEq _ _).mp h).symm⟩

/-- C3: the Onset Detector is deterministic — its output is a pure function
of the buffer contents, channel name and configuration, so equal inputs
give the identical onset sequence — and every successfully returned onset
sequence is in ascending (sweepIndex, sampleIndex) order. -/
theorem detect_stim_onsets_deterministic_ordered
    (buf buf2 : SignalBuffer) (ch ch2 : String) (cfg cfg2 : DetectorConfig) :
    (buf = buf2 → ch = ch2 → cfg = cfg2 →
      detect_stim_onsets buf ch cfg = detect_stim_onsets buf2 ch2 cfg2) ∧
    ∀ onsets, detect_stim_onsets buf ch cfg = .ok onsets →
      onsets.Pairwise onsetLt := by
  constructor
  · rintro rfl rfl rfl
    rfl
  · intro onsets h
    obtain ⟨⟨_, hmin, _, hrate⟩, samples, _, rfl⟩ := detect_stim_onsets_ok _ _ _ _ h
    have hgap : 1 ≤ onsetGap cfg buf.sampleRate :=
      le_trans (minInterOnsetSamples_pos cfg buf.sampleRate hmin hrate)
        (Nat.le_max_left _ _)
    refine (detectAll_pairwise _ _ _ _ _).imp ?_
    intro a b hab
    rcases hab with h1 | ⟨h1, h2⟩
    · exact Or.inl h1
    · exact Or.inr ⟨h1, by omega⟩

unseal Rat.mul Rat.add Rat.inv Rat.sub in
theorem detect_stim_onsets_deterministic_ordered_witness :
    ([⟨0, 2⟩, ⟨0, 7⟩] : List OnsetEvent).Pairwise onsetLt :=
  (detect_stim_onsets_deterministic_ordered exBuffer exBuffer "stim" "stim"
    exConfig exConfig).2 [⟨0, 2⟩, ⟨0, 7⟩] (by rfl)

/-- C4: in a successful onset sequence, two onsets of the same sweep are
strictly increasing and at least the configured minimum inter-onset
distance (in samples) apart, and every onset's sampleIndex lies inside its
sweep's slice of the detection channel. -/
theorem detect_stim_onsets_sweep_invariants
    (buf : SignalBuffer) (ch : String) (cfg : DetectorConfig)
    (onsets : List OnsetEvent)
    (h : detect_stim_onsets buf ch cfg = .ok onsets) :
    onsets.Pairwise (fun a b => a.sweepIndex = b.sweepIndex →
      a.sampleIndex < b.sampleIndex ∧
      a.sampleIndex + minInterOnsetSamples cfg buf.sampleRate ≤ b.sampleIndex) ∧
    ∃ samples, lookupChannel buf ch = some samples ∧
      ∀ e ∈ onsets, ∃ b, buf.sweepBoundaries[e.sweepIndex]? = some b ∧
        e.sampleIndex < (sweepSlice samples b).length := by
  obtain ⟨⟨_, hmin, _, hrate⟩, samples, hs, rfl⟩ := detect_stim_onsets_ok _ _ _ _ h
  have hmin1 := minInterOnsetSamples_pos cfg buf.sampleRate hmin hrate
  have hgap : minInterOnsetSamples cfg buf.sampleRate ≤ onsetGap cfg buf.sampleRate :=
    Nat.le_max_left _ _
  constructor
  · refine (detectAll_pairwise _ _ _ _ _).imp ?_
    intro a b hab heq
    rcases hab with h1 | ⟨h1, h2⟩
    · omega
    · exact ⟨by omega, by omega⟩
  · refine ⟨samples, hs, ?_⟩
    intro e he
    obtain ⟨b, hb, hlen⟩ := detectAll_mem _ _ _ _ _ _ he
    exact ⟨b, by simpa using hb, hlen⟩

unseal Rat.mul Rat.add Rat.inv Rat.sub in
theorem detect_stim_onsets_sweep_invariants_witness :
    ([⟨0, 2⟩, ⟨0, 7⟩] : List OnsetEvent).Pairwise (fun a b =>
      a.sweepIndex = b.sweepIndex →
      a.sampleIndex < b.sampleIndex ∧
      a.sampleIndex + minInterOnsetSamples exConfig exBuffer.sampleRate ≤ b.sampleIndex) ∧
    ∃ samples, lookupChannel exBuffer "stim" = some samples ∧
      ∀ e ∈ ([⟨0, 2⟩, ⟨0, 7⟩] : List OnsetEvent),
        ∃ b, exBuffer.sweepBoundaries[e.sweepIndex]? = some b ∧
          e.sampleIndex < (sweepSlice samples b).length :=
  detect_stim_onsets_sweep_invariants exBuffer "stim" exConfig
    [⟨0, 2⟩, ⟨0, 7⟩] (by rfl)

/-- C5: a non-positive threshold or window parameter makes the Onset
Detector fail with `ConfigurationError`, and a non-positive total window
(`preSamples + postSamples <= 0`) makes the Epoch Builder fail with
`ConfigurationError`; in both cases the error is the whole result — no
partial output exists. -/
theorem invalid_config_fails_fast
    (buf : SignalBuffer) (ch : String) (cfg : DetectorConfig)
    (onsets : List OnsetEvent) (preTime postTime : ℚ) (policy : BoundaryPolicy) :
    ((cfg.threshold ≤ 0 ∨ cfg.minInterOnsetDistance ≤ 0 ∨ cfg.refractoryAfterOnset ≤ 0) →
      detect_stim_onsets buf ch cfg = .error .configurationError) ∧
    (preSamplesOf preTime buf.sampleRate + postSamplesOf postTime buf.sampleRate ≤ 0 →
      build_epochs buf onsets preTime postTime policy = .error .configurationError) := by
  constructor
  · intro hbad
    rw [detect_stim_onsets, if_pos hbad]
  · intro hbad
    rw [build_epochs, if_pos hbad]

unseal Rat.mul Rat.add Rat.inv Rat.sub in
theorem invalid_config_fails_fast_witness :
    detect_stim_onsets exBuffer "stim" badConfig = .error .configurationError ∧
    build_epochs exBuffer [] 0 0 .drop = .error .configurationError :=
  ⟨(invalid_config_fails_fast exBuffer "stim" badConfig [] 0 0 .drop).1 (by decide),
    (invalid_config_fails_fast exBuffer "stim" badConfig [] 0 0 .drop).2 (by decide)⟩

/-- C2: the Epoch Builder converts `preTime`/`postTime` to sample counts
as the floors of `preTime * sampleRate` and `postTime * sampleRate`, its
output preserves the input onset ordering (the surviving source onsets
form a sublist of the input), and every epoch's time base and every
channel window have the same fixed length across the whole batch. -/
theorem build_epochs_floor_order_length
    (buf : SignalBuffer) (onsets : List OnsetEvent) (preTime postTime : ℚ)
    (policy : BoundaryPolicy) (epochs : List Epoch)
    (h : build_epochs buf onsets preTime postTime policy = .ok epochs) :
    (epochs.map Epoch.sourceOnset).Sublist onsets ∧
    ∀ e ∈ epochs,
      e.timeBase.length =
        (⌊preTime * buf.sampleRate⌋ + ⌊postTime * buf.sampleRate⌋).toNat ∧
      ∀ p ∈ e.window,
        p.2.length = (⌊preTime * buf.sampleRate⌋ + ⌊postTime * buf.sampleRate⌋).toNat := by
  obtain ⟨hpos, rfl⟩ := build_epochs_ok _ _ _ _ _ _ h
  constructor
  · exact map_filterMap_sublist _ _
      (epochFor_sourceOnset buf _ _ policy) onsets
  · intro e he
    rw [builtEpochs] at he
    obtain ⟨o, _, hoe⟩ := List.mem_filterMap.mp he
    rw [epochFor_eq _ _ _ _ _ _ hoe]
    refine ⟨buildEpoch_timeBase_length _ _ _ _ _ _, ?_⟩
    intro p hp
    exact buildEpoch_window_length _ _ _ _ _ _ p hp

unseal Rat.mul Rat.add Rat.inv Rat.sub in
theorem build_epochs_floor_order_length_witness :
    (([⟨⟨0, 2⟩, [("stim", [0, 5])], [-(1 / 10), 0], true⟩] : List Epoch).map
      Epoch.sourceOnset).Sublist [⟨0, 2⟩] ∧
    ∀ e ∈ ([⟨⟨0, 2⟩, [("stim", [0, 5])], [-(1 / 10), 0], true⟩] : List Epoch),
      e.timeBase.length =
        (⌊(1 / 10 : ℚ) * exBuffer.sampleRate⌋ + ⌊(1 / 10 : ℚ) * exBuffer.sampleRate⌋).toNat ∧
      ∀ p ∈ e.window,
        p.2.length =
          (⌊(1 / 10 : ℚ) * exBuffer.sampleRate⌋ + ⌊(1 / 10 : ℚ) * exBuffer.sampleRate⌋).toNat :=
  build_epochs_floor_order_length exBuffer [⟨0, 2⟩] (1 / 10) (1 / 10) .drop _ (by rfl)

/-- C6: an onset sitting `preSamples - 1` samples after its sweep's start
builds an invalid epoch; under `boundaryPolicy = drop` no epoch for it
appears in the (otherwise successful) result, while under `pad` the epoch
is included with `valid = false`, the batch's fixed window length, and a
zero-padded leading sample on every channel; the default policy is
`drop`. -/
theorem build_epochs_boundary_onset
    (buf : SignalBuffer) (onsets : List OnsetEvent) (preTime postTime : ℚ)
    (o : OnsetEvent)
    (hpre : (o.sampleIndex : Int) = preSamplesOf preTime buf.sampleRate - 1)
    (hpos : 0 < preSamplesOf preTime buf.sampleRate + postSamplesOf postTime buf.sampleRate)
    (hmem : o ∈ onsets) :
    (build_epochs buf onsets preTime postTime .drop =
        .ok (builtEpochs buf onsets preTime postTime .drop) ∧
      ∀ e ∈ builtEpochs buf onsets preTime postTime .drop, e.sourceOnset ≠ o) ∧
    (build_epochs buf onsets preTime postTime .pad =
        .ok (builtEpochs buf onsets preTime postTime .pad) ∧
      ∃ e ∈ builtEpochs buf onsets preTime postTime .pad, e.sourceOnset = o ∧
        e.valid = false ∧
        e.timeBase.length =
          (preSamplesOf preTime buf.sampleRate + postSamplesOf postTime buf.sampleRate).toNat ∧
        ∀ p ∈ e.window,
          p.2.length =
            (preSamplesOf preTime buf.sampleRate + postSamplesOf postTime buf.sampleRate).toNat ∧
          p.2.head? = some 0) ∧
    defaultBoundaryPolicy = .drop := by
  have hpre' : (o.sampleIndex : Int) - preSamplesOf preTime buf.sampleRate = -1 := by
    omega
  have hbuild : ∀ policy, build_epochs buf onsets preTime postTime policy =
      .ok (builtEpochs buf onsets preTime postTime policy) := by
    intro policy
    rw [build_epochs, if_neg (not_le.mpr hpos)]
  refine ⟨⟨hbuild .drop, ?_⟩, ⟨hbuild .pad, ?_⟩, rfl⟩
  · intro e he hso
    rw [builtEpochs] at he
    obtain ⟨o2, _, hoe⟩ := List.mem_filterMap.mp he
    have ho2 : o2 = o := by
      rw [← epochFor_sourceOnset _ _ _ _ _ _ hoe, hso]
    subst ho2
    simp only [epochFor] at hoe
    rw [if_neg] at hoe
    · exact absurd hoe (by simp)
    · rw [buildEpoch_invalid_left _ _ _ _ _ _ hpre']
      simp
  · refine ⟨buildEpoch buf.channels (buf.sweepBoundaries.getD o.sweepIndex (0, 0))
      buf.sampleRate (preSamplesOf preTime buf.sampleRate)
      (postSamplesOf postTime buf.sampleRate) o, ?_, rfl, ?_, ?_, ?_⟩
    · rw [builtEpochs]
      refine List.mem_filterMap.mpr ⟨o, hmem, ?_⟩
      simp only [epochFor]
    · exact buildEpoch_invalid_left _ _ _ _ _ _ hpre'
    · exact buildEpoch_timeBase_length _ _ _ _ _ _
    · intro p hp
      refine ⟨buildEpoch_window_length _ _ _ _ _ _ p hp, ?_⟩
      exact buildEpoch_window_head_zero _ _ _ _ _ _ hpre' (by omega) p hp

unseal Rat.mul Rat.add Rat.inv Rat.sub in
theorem build_epochs_boundary_onset_witness :
    (build_epochs exBuffer [⟨0, 0⟩] (1 / 10) (1 / 10) .drop =
        .ok (builtEpochs exBuffer [⟨0, 0⟩] (1 / 10) (1 / 10) .drop) ∧
      ∀ e ∈ builtEpochs exBuffer [⟨0, 0⟩] (1 / 10) (1 / 10) .drop,
        e.sourceOnset ≠ ⟨0, 0⟩) ∧
    (build_epochs exBuffer [⟨0, 0⟩] (1 / 10) (1 / 10) .pad =
        .ok (builtEpochs exBuffer [⟨0, 0⟩] (1 / 10) (1 / 10) .pad) ∧
      ∃ e ∈ builtEpochs exBuffer [⟨0, 0⟩] (1 / 10) (1 / 10) .pad,
        e.sourceOnset = ⟨0, 0⟩ ∧ e.valid = false ∧
        e.timeBase.length =
          (preSamplesOf (1 / 10) exBuffer.sampleRate +
            postSamplesOf (1 / 10) exBuffer.sampleRate).toNat ∧
        ∀ p ∈ e.window,
          p.2.length =
            (preSamplesOf (1 / 10) exBuffer.sampleRate +
              postSamplesOf (1 / 10) exBuffer.sampleRate).toNat ∧
          p.2.head? = some 0) ∧
    defaultBoundaryPolicy = .drop :=
  build_epochs_boundary_onset exBuffer [⟨0, 0⟩] (1 / 10) (1 / 10) ⟨0, 0⟩
    (by decide) (by decide) (by decide)

/-! Helper lemmas about the Metrics Calculator. -/

theorem meanQ_replicate (m : Nat) (c : ℚ) (hm : m ≠ 0) :
    meanQ (List.replicate m c) = c := by
  rw [meanQ, List.length_replicate, if_neg hm, List.sum_replicate, nsmul_eq_mul]
  exact mul_div_cancel_left₀ c (by exact_mod_cast hm)

theorem betterPeak_zero (pol : PeakPolarity) : betterPeak pol 0 0 = false := by
  cases pol <;> simp [betterPeak, ratAbs]

theorem peakFold_replicate_zero (pol : PeakPolarity) :
    ∀ (k i : Nat) (best : Nat × ℚ), best.2 = 0 →
      peakFold pol (List.replicate k 0) i best = best := by
  intro k
  induction k with
  | zero => intro i best _; rfl
  | succ k ih =>
    intro i best hb
    rw [List.replicate_succ]
    simp only [peakFold, hb, betterPeak_zero, Bool.false_eq_true, if_false]
    exact ih (i + 1) best hb

theorem peakSelect_replicate_zero (pol : PeakPolarity) (k : Nat) :
    peakSelect pol (List.replicate k 0) = (0, 0) :=
  peakFold_replicate_zero pol k 0 (0, 0) rfl

theorem flat_devs (n s0 s1 : Nat) (c : ℚ) :
    (((List.replicate n c).take s1).drop s0).map (fun x => x - c) =
      List.replicate (min s1 n - s0) 0 := by
  rw [List.take_replicate, List.drop_replicate, List.map_replicate, sub_self]

theorem trapArea_replicate_zero (k : Nat) (rate : ℚ) :
    trapArea (List.replicate k 0) rate = 0 := by
  simp [trapArea, List.zipWith_replicate, List.sum_replicate]

/-- C7: the Metrics Calculator is total — modelled as a Lean function it
returns a defined `EpochMetrics` on every input, raising nothing — and on
an epoch whose response channel is flat (constant, hence zero variance) it
reports `peakAmplitude = 0`, `area = 0`, and the explicit "not applicable"
sentinel (`none`) for `riseTime` and `decayTime`. -/
theorem compute_epoch_metrics_flat (n : Nat) (c : ℚ) (timeBase : List ℚ)
    (onsetIdx : Nat) (rate : ℚ) (cfg : MetricsConfig)
    (hbw : 0 < (⌊cfg.baselineWindow * rate⌋).toNat)
    (hon : 0 < onsetIdx) (hn : onsetIdx ≤ n) :
    (compute_epoch_metrics (List.replicate n c) timeBase onsetIdx rate cfg).peakAmplitude
        = 0 ∧
    (compute_epoch_metrics (List.replicate n c) timeBase onsetIdx rate cfg).area = 0 ∧
    (compute_epoch_metrics (List.replicate n c) timeBase onsetIdx rate cfg).riseTime
        = none ∧
    (compute_epoch_metrics (List.replicate n c) timeBase onsetIdx rate cfg).decayTime
        = none := by
  have hbase : meanQ (((List.replicate n c).take onsetIdx).drop
      (onsetIdx - (⌊cfg.baselineWindow * rate⌋).toNat)) = c := by
    rw [List.take_replicate, List.drop_replicate]
    exact meanQ_replicate _ _ (by omega)
  simp only [compute_epoch_metrics, hbase, flat_devs, peakSelect_replicate_zero,
    trapArea_replicate_zero]
  simp

unseal Rat.mul Rat.add Rat.inv Rat.sub in
theorem compute_epoch_metrics_flat_witness :
    (compute_epoch_metrics (List.replicate 6 5) [0, 0, 0, 0, 0, 0] 3 10
        exMetricsConfig).peakAmplitude = 0 ∧
    (compute_epoch_metrics (List.replicate 6 5) [0, 0, 0, 0, 0, 0] 3 10
        exMetricsConfig).area = 0 ∧
    (compute_epoch_metrics (List.replicate 6 5) [0, 0, 0, 0, 0, 0] 3 10
        exMetricsConfig).riseTime = none ∧
    (compute_epoch_metrics (List.replicate 6 5) [0, 0, 0, 0, 0, 0] 3 10
        exMetricsConfig).decayTime = none :=
  compute_epoch_metrics_flat 6 5 [0, 0, 0, 0, 0, 0] 3 10 exMetricsConfig
    (by decide) (by decide) (by decide)

/-- C8: the Alignment Refiner's `apply_alignment` replaces only the
`window` samples and the `timeBase` of an epoch: the source onset, the
validity flag, the channel names and all window lengths are untouched (and
in this pure embedding the detector, builder and metrics stages construct
fresh values from a read-only `SignalBuffer`, so neither the buffer nor an
existing epoch is ever mutated by them). -/
theorem apply_alignment_frame (offset rate : ℚ) (pre : Int) (e : Epoch) :
    (apply_alignment offset rate pre e).sourceOnset = e.sourceOnset ∧
    (apply_alignment offset rate pre e).valid = e.valid ∧
    (apply_alignment offset rate pre e).window.map Prod.fst =
      e.window.map Prod.fst ∧
    (apply_alignment offset rate pre e).window.map (fun p => p.2.length) =
      e.window.map (fun p => p.2.length) ∧
    (apply_alignment offset rate pre e).timeBase.length = e.timeBase.length := by
  refine ⟨rfl, rfl, ?_, ?_, ?_⟩
  · simp [apply_alignment]
  · simp [apply_alignment]
  · simp [apply_alignment]

set_option maxRecDepth 100000 in
unseal Rat.mul Rat.add Rat.inv Rat.sub in
/-- C1, counterexample: it is not true that for every synthetic reference
waveform and every sub-sample shift inside the search range the Alignment
Refiner recovers the applied offset within 0.05 samples with confidence
above 0.9 — the all-zero waveform defeats it (every lag correlates
equally, the first lag of the search wins, and the offset estimate is -2
with confidence 0 for an applied shift of +0.3). -/
theorem refine_alignment_not_universal :
    ¬ ∀ (w : List ℚ) (off : ℚ), -2 ≤ off → off ≤ 2 → recoversOffset w off := by
  intro h
  have hz := h (List.replicate 4 0) (3 / 10) (by norm_num) (by norm_num)
  exact absurd hz (by decide)

set_option maxRecDepth 100000 in
unseal Rat.mul Rat.add Rat.inv Rat.sub in
/-- C1, amended: for the non-degenerate synthetic reference pulse and the
spec's example sub-sample shifts of +0.3 and -1.7 samples, the Alignment
Refiner recovers each applied offset within 0.05 samples and reports a
confidence above 0.9 on these noiseless inputs (the universal version over
all waveforms is refuted by the all-zero waveform). -/
theorem refine_alignment_recovers_on_pulse :
    recoversOffset examplePulse (3 / 10) ∧ recoversOffset examplePulse (-17 / 10) := by
  constructor <;> decide

/-- C9: `run_command` returns the completed process exactly when the exit
code is zero or `check` is false, and raises `CalledProcessError` carrying
the command's return code, stdout and stderr exactly when the exit code is
nonzero and `check` is true. -/
theorem run_command_spec (r : CompletedProcess) (check : Bool) :
    (run_command r check = .completed r ↔ (r.returncode = 0 ∨ check = false)) ∧
    (run_command r check = .calledProcessError r.returncode r.stdout r.stderr ↔
      (r.returncode ≠ 0 ∧ check = true)) := by
  by_cases h : r.returncode = 0 <;> cases check <;>
    simp [run_command, h]

/-- C10: whatever the outcomes of the four subprocess calls inside
`download_dependencies` (and whether a failed `uv venv` leaves the
directory behind, and whether `.temp_venv` pre-existed), the `finally`
block leaves no `.temp_venv` directory behind — on normal return and on
every exception-propagating path alike. -/
theorem download_dependencies_removes_temp_venv (init : FsState)
    (venvCreate pipInstall dlPlatform dlPlain : StepOutcome)
    (venvLeavesDir : Bool) :
    (download_dependencies_tempVenv init venvCreate pipInstall dlPlatform dlPlain
      venvLeavesDir).1.tempVenvExists = false := by
  simp only [download_dependencies_tempVenv]
  split
  · rfl
  · rename_i h
    simpa using h

end Ephyalign
